import Mathlib

/-!
Verification of the Jaguza-BE order/payment core against its specification.

The JavaScript source is shallowly embedded here:
* JS numbers carrying money are modelled as `ℚ` (`Number.prototype.toFixed(2)`
  becomes `round2`); `null`/`undefined`-able fields become `Option`s.
* Mongoose documents become Lean structures; a collection becomes an
  association list keyed by the document id.
* Every `await`ed single-document store operation is one atomic step; stateful
  controller bodies become explicit state-passing functions; a thrown JS error
  becomes an error branch of the result type.
-/

namespace Jaguza

/-- JS `Number(x).toFixed(2)` on a rational: round to two decimal places. -/
def round2 (q : ℚ) : ℚ := (round (q * 100) : ℤ) / 100

/-- ASCII uppercase of one character (`String.prototype.toUpperCase` on the
ASCII country/coupon codes the source uses), written structurally so it
evaluates. -/
def asciiUpperChar (c : Char) : Char :=
  if 'a' ≤ c ∧ c ≤ 'z' then Char.ofNat (c.toNat - 32) else c

/-- JS `s.toUpperCase()` on ASCII strings. -/
def jsUpper (s : String) : String := String.mk (s.data.map asciiUpperChar)

/-- ASCII lowercase of one character. -/
def asciiLowerChar (c : Char) : Char :=
  if 'A' ≤ c ∧ c ≤ 'Z' then Char.ofNat (c.toNat + 32) else c

/-- JS `s.toLowerCase()` on ASCII strings (currency codes). -/
def jsLower (s : String) : String := String.mk (s.data.map asciiLowerChar)

/-- JS string truthiness for an optional string field: `undefined`, `null` and
`''` are falsy. -/
def strTruthy : Option String → Bool
  | none => false
  | some s => !(s == "")

/-- JS `a || b` on optional strings (empty string counts as falsy). -/
def strOr (a : Option String) (b : Option String) : Option String :=
  if strTruthy a then a else b

/-! ## Order documents (src/models — `orderSchema` in the models bundle) -/

/-- `status` enum of `orderSchema`. -/
inductive OrderStatus
  | pending | confirmed | processing | shipped | delivered
  | cancelled | returned | refunded
  deriving DecidableEq, Repr

/-- `payment.status` enum of `paymentSchema`. -/
inductive PayStatus
  | pending | paid | failed | refunded
  deriving DecidableEq, Repr

/-- `paymentSchema` sub-document of an order. -/
structure Payment where
  method : Option String := none
  status : PayStatus := .pending
  transactionId : Option String := none
  intentId : Option String := none
  amount : Option ℚ := none
  currency : Option String := none
  receiptUrl : Option String := none
  failureReason : Option String := none
  deriving DecidableEq, Repr

/-- The fresh `{}` object produced by `order.payment = order.payment || {}`. -/
def Payment.empty : Payment := {}

/-- `refundSchema` sub-document of an order. -/
structure Refund where
  amount : Option ℚ := none
  reason : Option String := none
  date : Option ℕ := none
  deriving DecidableEq, Repr

/-- The fields of an order document that the webhook handlers and the admin
status endpoint read or write (`orderSchema` in the models bundle; the
shipping sub-document is flattened to its three mutated fields). -/
structure Order where
  status : OrderStatus := .pending
  isPaid : Bool := false
  paidAt : Option ℕ := none
  payment : Option Payment := none
  refund : Option Refund := none
  shippingStatus : Option String := none
  trackingNumber : Option String := none
  courier : Option String := none
  isDelivered : Bool := false
  deliveredAt : Option ℕ := none
  deriving DecidableEq, Repr

/-- `order.payment?.status` — `none` when the sub-document is absent. -/
def Order.payStatus (o : Order) : Option PayStatus := o.payment.map (·.status)

/-! ## Stripe event payloads -/

/-- One entry of `paymentIntent.charges.data`. -/
structure Charge where
  id : Option String := none
  receipt_url : Option String := none
  payment_intent : Option String := none
  amount_refunded : Option ℚ := none
  refund_reason : Option String := none
  deriving DecidableEq, Repr

/-- The Stripe payment-intent / charge object carried by a webhook event. -/
structure PaymentIntent where
  id : String
  metadata_orderId : Option String := none
  amount_received : Option ℚ := none
  currency : Option String := none
  payment_method_types : List String := []
  charges : List Charge := []
  last_payment_error_message : Option String := none
  deriving DecidableEq, Repr

/-! ## `markOrderPaid` (src/controllers/webhook.controller.js, lines 9–57)

The id lookup (`metadata.orderId`, `Order.findById`) happens at the call
site; here the referenced order has been found and the function computes the
saved order document. -/

/-- The amount guard of `markOrderPaid` fires: the order records a finite
positive `payment.amount`, the event carries `amount_received`, and the two
differ (lines 24–25 of webhook.controller.js). -/
def amountMismatch (o : Order) (pi : PaymentIntent) : Bool :=
  match o.payment.bind (·.amount), pi.amount_received with
  | some ea, some ar => decide (0 < ea) && decide (ar ≠ ea)
  | _, _ => false

/-- The currency guard of `markOrderPaid` fires: both the recorded and the
event currency are truthy and differ case-insensitively (lines 33–34). -/
def currencyMismatch (o : Order) (pi : PaymentIntent) : Bool :=
  match o.payment.bind (·.currency), pi.currency with
  | some ec, some c =>
      strTruthy (some ec) && strTruthy (some c) && !(jsLower c == jsLower ec)
  | _, _ => false

/-- `markOrderPaid` on a found order (webhook.controller.js lines 14–57):
terminal-state and already-paid guards, amount/currency mismatch guards, then
the paid update. `now` stands for `new Date()`. -/
def markOrderPaid (o : Order) (pi : PaymentIntent) (now : ℕ) : Order :=
  if o.status = .cancelled ∨ o.status = .refunded then o
  else if o.isPaid ∨ o.payStatus = some .paid then o
  else if amountMismatch o pi then
    let p := o.payment.getD Payment.empty
    { o with payment := some { p with
        status := .failed, failureReason := some "Payment amount mismatch" } }
  else if currencyMismatch o pi then
    let p := o.payment.getD Payment.empty
    { o with payment := some { p with
        status := .failed, failureReason := some "Payment currency mismatch" } }
  else
    let charge := pi.charges.head?
    let p := o.payment.getD Payment.empty
    { o with
      payment := some { p with
        status := .paid
        intentId := some pi.id
        transactionId := some ((strOr (charge.bind (·.id)) (some pi.id)).getD pi.id)
        currency := pi.currency
        amount := pi.amount_received
        method := strOr pi.payment_method_types.head? (strOr p.method (some "card"))
        receiptUrl := strOr (charge.bind (·.receipt_url)) p.receiptUrl
        failureReason := none }
      isPaid := true
      paidAt := some now
      status := if o.status = .pending then .confirmed else o.status }

/-- `markOrderFailed` on a found order (webhook.controller.js lines 59–76). -/
def markOrderFailed (o : Order) (pi : PaymentIntent) : Order :=
  if o.isPaid ∨ o.payStatus = some .paid ∨ o.payStatus = some .refunded ∨
      o.status = .refunded then o
  else
    let p := o.payment.getD Payment.empty
    { o with
      payment := some { p with
        status := .failed
        intentId := some pi.id
        failureReason :=
          some ((strOr pi.last_payment_error_message (some "Payment failed")).getD
            "Payment failed") }
      isPaid := false }

/-- `markOrderRefunded` on the order found by `payment.intentId`
(webhook.controller.js lines 78–97). -/
def markOrderRefunded (o : Order) (ch : Charge) (now : ℕ) : Order :=
  if o.payStatus = some .refunded ∨ o.status = .refunded then o
  else
    let p := o.payment.getD Payment.empty
    let r := o.refund.getD {}
    { o with
      payment := some { p with
        status := .refunded
        transactionId := strOr ch.id p.transactionId }
      refund := some { r with
        amount := ch.amount_refunded
        reason := strOr ch.refund_reason r.reason
        date := some now }
      status := .refunded
      isPaid := false }

/-! ## Association-list stores (one entry per document id) -/

/-- Look a key up in an association list (a Mongo `findOne` by key). -/
def lookupKey {K V : Type} [DecidableEq K] : List (K × V) → K → Option V
  | [], _ => none
  | (k, v) :: rest, key => if k = key then some v else lookupKey rest key

/-- Replace the value at a key, or append the pair when the key is absent
(a Mongo single-document update / upsert). -/
def setKey {K V : Type} [DecidableEq K] : List (K × V) → K → V → List (K × V)
  | [], key, v => [(key, v)]
  | (k, w) :: rest, key, v =>
      if k = key then (k, v) :: rest else (k, w) :: setKey rest key v

/-- The order collection: order documents keyed by id. -/
abbrev OrderStore := List (String × Order)

/-- `const order = await Order.findById(orderId); if (!order) return;` followed
by mutating `order` and `order.save()` — applies `f` to the referenced order
when the id is present and found, otherwise leaves the store unchanged. -/
def applyToOrder (os : OrderStore) (oid : Option String) (f : Order → Order) :
    OrderStore :=
  match oid with
  | none => os
  | some i =>
      match lookupKey os i with
      | none => os
      | some o => setKey os i (f o)

/-- `Order.findOne({ 'payment.intentId': intentId })`. -/
def findByIntentId (os : OrderStore) (intentId : String) :
    Option (String × Order) :=
  os.find? (fun kv => kv.2.payment.bind (·.intentId) == some intentId)

/-- The `event.data.object` payload: a payment intent or a charge. -/
inductive EventObject
  | intent (pi : PaymentIntent)
  | charge (ch : Charge)
  deriving DecidableEq, Repr

/-- The `switch (event.type)` dispatch of `handleStripeWebhook`
(webhook.controller.js lines 152–164); unknown types are ignored. -/
def dispatchStripe (evType : String) (obj : EventObject) (os : OrderStore)
    (now : ℕ) : OrderStore :=
  match obj with
  | .intent pi =>
      if evType = "payment_intent.succeeded" then
        applyToOrder os pi.metadata_orderId (fun o => markOrderPaid o pi now)
      else if evType = "payment_intent.payment_failed" then
        applyToOrder os pi.metadata_orderId (fun o => markOrderFailed o pi)
      else os
  | .charge ch =>
      if evType = "charge.refunded" then
        match ch.payment_intent with
        | none => os
        | some iid =>
            match findByIntentId os iid with
            | none => os
            | some (k, o) => setKey os k (markOrderRefunded o ch now)
      else os

/-! ## WebhookEvent ledger (src/models/webhookEvent.model.js and
handleStripeWebhook, webhook.controller.js lines 119–182) -/

/-- A `WebhookEvent` document (`webhookEventSchema`); the `(provider, eventId)`
key lives in the ledger association list. -/
structure EventRecord where
  type : String
  orderId : Option String := none
  receivedAt : ℕ
  lastSeenAt : ℕ
  attempts : ℕ := 0
  processedAt : Option ℕ := none
  lastError : Option String := none
  deriving DecidableEq, Repr

/-- The WebhookEvent collection, keyed by the unique `(provider, eventId)`. -/
abbrev Ledger := List ((String × String) × EventRecord)

/-- The HTTP response of the webhook route: status code plus the `duplicate`
flag of the JSON body. -/
structure WebhookResponse where
  status : ℕ
  duplicate : Bool := false
  deriving DecidableEq, Repr

/-- `handleStripeWebhook` after signature verification (webhook.controller.js
lines 119–182). `handle` is the dispatched event handler (the `switch`,
`dispatchStripe` in the happy path); it returns `.error` when the handler
throws (e.g. a failed `order.save()`).

Steps, mirroring the source: reject an empty event id (400); upsert the
ledger record (`$setOnInsert` + `$inc: { attempts: 1 }`); if `processedAt` is
already set answer `{received, duplicate}` without touching orders; otherwise
run the handler — on error record `lastError` and answer 500, on success stamp
`processedAt` and clear `lastError`. -/
def processWebhookEvent (handle : OrderStore → Except String OrderStore)
    (L : Ledger) (os : OrderStore) (provider eventId evType : String)
    (orderId : Option String) (now : ℕ) :
    WebhookResponse × Ledger × OrderStore :=
  if eventId = "" then ({ status := 400 }, L, os)
  else
    let key := (provider, eventId)
    let rec0 : EventRecord :=
      match lookupKey L key with
      | none =>
          { type := evType, orderId := orderId, receivedAt := now
            lastSeenAt := now, attempts := 1 }
      | some r =>
          { r with type := evType, orderId := orderId, lastSeenAt := now
                   attempts := r.attempts + 1 }
    let L1 := setKey L key rec0
    if rec0.processedAt.isSome then
      ({ status := 200, duplicate := true }, L1, os)
    else
      match handle os with
      | .error e =>
          ({ status := 500 }, setKey L1 key { rec0 with lastError := some e }, os)
      | .ok os2 =>
          ({ status := 200 },
           setKey L1 key { rec0 with processedAt := some now, lastError := none },
           os2)

/-! ## Admin order status update (src/controllers/admin.controller.js,
`updateOrderStatus`, lines 318–342) -/

/-- Parse a requested status string against the `orderSchema` `status` enum;
`none` means `order.save()` would reject it with a validation error. -/
def statusOfString : String → Option OrderStatus
  | "pending" => some .pending
  | "confirmed" => some .confirmed
  | "processing" => some .processing
  | "shipped" => some .shipped
  | "delivered" => some .delivered
  | "cancelled" => some .cancelled
  | "returned" => some .returned
  | "refunded" => some .refunded
  | _ => none

/-- The `shippingSchema` `status` enum. -/
def shipStatusAllowed (s : String) : Bool :=
  s == "pending" || s == "processing" || s == "shipped" || s == "in-transit" ||
  s == "out-for-delivery" || s == "delivered" || s == "returned" || s == "failed"

/-- `updateOrderStatus` on a found order: assigns `req.body.status`
unconditionally, copies the optional shipping fields, marks delivery for a
`delivered` request, then saves. `none` means the save was rejected by schema
enum validation (the only check that exists). -/
def updateOrderStatus (o : Order) (reqStatus : String)
    (reqShippingStatus reqTracking reqCourier : Option String) (now : ℕ) :
    Option Order :=
  match statusOfString reqStatus with
  | none => none
  | some st =>
      if (match reqShippingStatus with
          | none => true
          | some s => shipStatusAllowed s) then
        some { o with
          status := st
          shippingStatus :=
            match reqShippingStatus with
            | none => o.shippingStatus
            | some s => some s
          trackingNumber :=
            match reqTracking with
            | none => o.trackingNumber
            | some t => some t
          courier :=
            match reqCourier with
            | none => o.courier
            | some c => some c
          isDelivered := if reqStatus == "delivered" then true else o.isDelivered
          deliveredAt :=
            if reqStatus == "delivered" then some (o.deliveredAt.getD now)
            else o.deliveredAt }
      else none

/-! ## Product stock (src/models/product.model.js fields used by
`addOrderItems`) -/

/-- The product fields `addOrderItems` reads: the conditional-update filter
fields plus the snapshot fields (`name sku price images`). -/
structure ProductState where
  countInStock : ℚ
  enabled : Bool := true
  isDeleted : Bool := false
  price : ℚ := 0
  name : String := ""
  sku : String := ""
  images : List String := []
  deriving DecidableEq, Repr

/-- The product collection, keyed by id. -/
abbrev ProductStore := List (String × ProductState)

/-- `Product.updateOne({ _id, enabled: true, isDeleted: { $ne: true },
countInStock: { $gte: qty } }, { $inc: { countInStock: -qty } })` —
`none` when no document matched (`modifiedCount = 0`). One atomic store
step (the store's per-document atomicity serializes these). -/
def decrementIfAvailable : ProductStore → String → ℚ → Option ProductStore
  | [], _, _ => none
  | (k, p) :: rest, pid, q =>
      if k = pid then
        if p.enabled && !p.isDeleted && decide (q ≤ p.countInStock) then
          some ((k, { p with countInStock := p.countInStock - q }) :: rest)
        else none
      else ((k, p) :: ·) <$> decrementIfAvailable rest pid q

/-- Compensating `Product.updateOne({ _id }, { $inc: { countInStock: qty } })`:
unconditional increment, no-op when the id is absent. -/
def incrementStock : ProductStore → String → ℚ → ProductStore
  | [], _, _ => []
  | (k, p) :: rest, pid, q =>
      if k = pid then (k, { p with countInStock := p.countInStock + q }) :: rest
      else (k, p) :: incrementStock rest pid q

/-! ## Shipping and tax (src/utils/shipping.utils.js) -/

/-- One `{ price, days }` rate entry. -/
structure ShipRate where
  price : ℚ
  days : String
  deriving DecidableEq, Repr

/-- One region's entry of `SHIPPING_RATES`. -/
structure RegionRates where
  standard : ShipRate
  express : Option ShipRate := none
  free_threshold : Option ℚ := none
  deriving DecidableEq, Repr

/-- The `SHIPPING_RATES` table (shipping.utils.js lines 7–25). -/
def SHIPPING_RATES : String → Option RegionRates
  | "UG" => some { standard := ⟨5, "3-5"⟩, express := some ⟨12, "1-2"⟩
                   free_threshold := some 50 }
  | "KE" => some { standard := ⟨15, "5-7"⟩, express := some ⟨30, "2-3"⟩ }
  | "TZ" => some { standard := ⟨15, "5-7"⟩, express := some ⟨30, "2-3"⟩ }
  | "RW" => some { standard := ⟨12, "4-6"⟩, express := some ⟨25, "2-3"⟩ }
  | "SS" => some { standard := ⟨18, "7-10"⟩, express := some ⟨35, "3-4"⟩ }
  | "AFRICA" => some { standard := ⟨25, "10-14"⟩, express := some ⟨50, "5-7"⟩ }
  | "EU" => some { standard := ⟨35, "14-21"⟩, express := some ⟨70, "7-10"⟩ }
  | "US" => some { standard := ⟨40, "14-21"⟩, express := some ⟨80, "7-10"⟩ }
  | "DEFAULT" => some { standard := ⟨45, "21-30"⟩, express := some ⟨90, "10-14"⟩ }
  | _ => none

/-- The `DEFAULT` row of `SHIPPING_RATES` (used by the `|| DEFAULT` fallback). -/
def defaultRates : RegionRates :=
  { standard := ⟨45, "21-30"⟩, express := some ⟨90, "10-14"⟩ }

/-- `AFRICAN_COUNTRIES` (shipping.utils.js lines 28–33). -/
def AFRICAN_COUNTRIES : List String :=
  ["DZ", "AO", "BJ", "BW", "BF", "BI", "CV", "CM", "CF", "TD", "KM", "CG", "CD",
   "DJ", "EG", "GQ", "ER", "SZ", "ET", "GA", "GM", "GH", "GN", "GW", "CI", "LS",
   "LR", "LY", "MG", "MW", "ML", "MR", "MU", "MA", "MZ", "NA", "NE", "NG", "RE",
   "SC", "SL", "SO", "ZA", "SD", "TG", "TN", "UG", "ZM", "ZW", "KE", "TZ", "RW",
   "SS"]

/-- `EU_COUNTRIES` (shipping.utils.js lines 36–39). -/
def EU_COUNTRIES : List String :=
  ["AT", "BE", "BG", "HR", "CY", "CZ", "DK", "EE", "FI", "FR", "DE", "GR", "HU",
   "IE", "IT", "LV", "LT", "LU", "MT", "NL", "PL", "PT", "RO", "SK", "SI", "ES",
   "SE"]

/-- `TAX_RATES` lookup with its zero default (shipping.utils.js lines 42–48). -/
def taxRate : String → ℚ
  | "UG" => 18 / 100
  | "KE" => 16 / 100
  | "TZ" => 18 / 100
  | "RW" => 18 / 100
  | _ => 0

/-- `getShippingRegion` (shipping.utils.js lines 53–61). -/
def getShippingRegion (countryCode : Option String) : String :=
  let code := jsUpper (countryCode.getD "")
  if (SHIPPING_RATES code).isSome then code
  else if code ∈ EU_COUNTRIES then "EU"
  else if code = "US" ∨ code = "CA" then "US"
  else if code ∈ AFRICAN_COUNTRIES then "AFRICA"
  else "DEFAULT"

/-- `rates[method] || rates.standard`: a JS bracket lookup by method name. -/
def rateFor (r : RegionRates) (method : String) : ShipRate :=
  if method = "standard" then r.standard
  else if method = "express" then r.express.getD r.standard
  else r.standard

/-- Result of `calculateShipping`. -/
structure ShippingCalc where
  cost : ℚ
  method : String
  estimatedDays : String
  isFree : Bool
  deriving DecidableEq, Repr

/-- `calculateShipping` (shipping.utils.js lines 72–107): domestic
free-shipping threshold for `standard`, then additive weight and item-count
surcharges, rounded to 2 decimals. -/
def calculateShipping (countryCode : Option String) (orderTotal : ℚ)
    (method : String) (itemCount : ℚ) (totalWeight : ℚ) : ShippingCalc :=
  let region := getShippingRegion countryCode
  let rates := (SHIPPING_RATES region).getD defaultRates
  let shippingMethod := rateFor rates method
  let freeThresholdHit : Bool :=
    match rates.free_threshold with
    | none => false
    | some t => !(t == 0) && decide (t ≤ orderTotal)
  if region = "UG" ∧ freeThresholdHit = true ∧ method = "standard" then
    { cost := 0, method := "standard", estimatedDays := shippingMethod.days
      isFree := true }
  else
    let cost1 := shippingMethod.price +
      (if 5 < totalWeight then (totalWeight - 5) * 2 else 0)
    let cost2 := cost1 + (if 10 < itemCount then (itemCount - 10) * (1 / 2) else 0)
    { cost := round2 cost2, method := method
      estimatedDays := shippingMethod.days, isFree := false }

/-- Result of `calculateTax`. -/
structure TaxCalc where
  rate : ℚ
  amount : ℚ
  deriving DecidableEq, Repr

/-- `calculateTax` (shipping.utils.js lines 146–158). -/
def calculateTax (countryCode : Option String) (subtotal : ℚ) : TaxCalc :=
  let rate := taxRate (jsUpper (countryCode.getD ""))
  { rate := rate, amount := round2 (subtotal * rate) }

/-! ## Coupons (src/models — `couponSchema`; src/controllers —
`applyCouponToOrder`) -/

/-- `discountType` enum of `couponSchema`. -/
inductive DiscountType
  | percentage | fixed
  deriving DecidableEq, Repr

/-- One `usedBy` entry of a coupon. -/
structure UsedEntry where
  user : String
  order : Option String := none
  discountApplied : ℚ := 0
  deriving DecidableEq, Repr

/-- A `Coupon` document (`couponSchema`), restricted to the fields checkout
reads or writes. -/
structure Coupon where
  code : String
  discountType : DiscountType := .percentage
  discountValue : ℚ := 0
  minOrderAmount : ℚ := 0
  maxDiscountAmount : Option ℚ := none
  usageLimit : Option ℕ := none
  usageLimitPerUser : ℕ := 1
  usedCount : ℕ := 0
  validFrom : ℕ := 0
  validUntil : ℕ := 0
  allowedUsers : List String := []
  firstOrderOnly : Bool := false
  isActive : Bool := true
  usedBy : List UsedEntry := []
  deriving DecidableEq, Repr

/-- The coupon collection, keyed by the unique upper-case `code`. -/
abbrev CouponStore := List (String × Coupon)

/-- The `isValid` virtual of `couponSchema`: active, inside the validity
window, global usage limit not exhausted. -/
def couponIsValid (c : Coupon) (now : ℕ) : Bool :=
  c.isActive && decide (c.validFrom ≤ now) && decide (now ≤ c.validUntil) &&
  (match c.usageLimit with
   | none => true
   | some l => decide (c.usedCount < l))

/-- `coupon.calculateDiscount(orderTotal)`: percentage capped by a truthy
`maxDiscountAmount`, fixed capped at the order total, rounded to 2 decimals. -/
def calculateDiscount (c : Coupon) (now : ℕ) (orderTotal : ℚ) : ℚ :=
  if !(couponIsValid c now) then 0
  else if orderTotal < c.minOrderAmount then 0
  else
    let d :=
      match c.discountType with
      | .percentage =>
          let raw := orderTotal * c.discountValue / 100
          match c.maxDiscountAmount with
          | none => raw
          | some m => if ¬m = 0 ∧ m < raw then m else raw
      | .fixed => min c.discountValue orderTotal
    round2 d

/-- `coupon.canBeUsedBy(userId, isFirstOrder)`: `none` when usable, otherwise
the rejection reason. -/
def canBeUsedBy (c : Coupon) (userId : String) (isFirstOrder : Bool)
    (now : ℕ) : Option String :=
  if !(couponIsValid c now) then some "Coupon is not valid or has expired"
  else if c.firstOrderOnly && !isFirstOrder then
    some "This coupon is only valid for first orders"
  else if !c.allowedUsers.isEmpty && !(c.allowedUsers.contains userId) then
    some "This coupon is not available for your account"
  else if c.usageLimitPerUser ≤ (c.usedBy.filter (·.user == userId)).length then
    some "You have already used this coupon the maximum number of times"
  else none

/-- `Coupon.findValidByCode(code)`: `findOne` on the upper-cased code with the
same active/window/limit conditions as the `isValid` virtual. -/
def findValidByCode (cs : CouponStore) (code : String) (now : ℕ) :
    Option Coupon :=
  match lookupKey cs (jsUpper code) with
  | none => none
  | some c => if couponIsValid c now then some c else none

/-- `applyCouponToOrder(couponCode, userId, orderId, orderTotal)` (coupon
controller lines 117–141): validate, compute the discount, then record usage —
push a `usedBy` entry (the caller passes `orderId = null`) and increment
`usedCount` — and save the coupon. Returns
`(discount, applied, coupon id if applied, updated store)`. -/
def applyCouponToOrder (cs : CouponStore) (couponCode : Option String)
    (userId : String) (orderId : Option String) (orderTotal : ℚ) (now : ℕ)
    (isFirstOrder : Bool) : ℚ × Bool × Option String × CouponStore :=
  if !(strTruthy couponCode) then (0, false, none, cs)
  else
    let code := couponCode.getD ""
    match findValidByCode cs code now with
    | none => (0, false, none, cs)
    | some c =>
        match canBeUsedBy c userId isFirstOrder now with
        | some _ => (0, false, none, cs)
        | none =>
            let d := calculateDiscount c now orderTotal
            let c2 := { c with
              usedBy := c.usedBy ++
                [{ user := userId, order := orderId, discountApplied := d }]
              usedCount := c.usedCount + 1 }
            (d, true, some c.code, setKey cs (jsUpper code) c2)

/-! ## Order placement — `addOrderItems` (order controller in the source
bundle, `src/unnamed/part_003`) -/

/-- One raw `orderItems` entry of the request body. -/
structure RawOrderItem where
  productId : Option String := none
  product : Option String := none
  qty : Option ℚ := none
  quantity : Option ℚ := none
  deriving DecidableEq, Repr

/-- `normalizeOrderItems` (part_003 lines 9–18): pick the product reference
and quantity, keep entries with a truthy id and a finite positive quantity. -/
def normalizeOrderItems (items : List RawOrderItem) : List (String × ℚ) :=
  items.filterMap (fun it =>
    let pid := strOr it.productId it.product
    let q := (it.qty.orElse fun _ => it.quantity).getD 0
    match pid with
    | some p => if strTruthy (some p) && decide (0 < q) then some (p, q) else none
    | none => none)

/-- The request-level inputs of `addOrderItems` after `normalizeOrderItems`,
plus the ambient facts the controller reads from elsewhere: whether this is
the user's first order (`Order.countDocuments` inside `applyCouponToOrder`)
and whether the infrastructure lets `order.save()` succeed. -/
structure PlaceOrderInput where
  items : List (String × ℚ)
  country : Option String := none
  shippingMethod : String := "standard"
  paymentMethod : Option String := none
  couponCode : Option String := none
  userId : String := "u1"
  isFirstOrder : Bool := false
  saveOk : Bool := true
  deriving DecidableEq, Repr

/-- One line-item snapshot pushed onto `computedItems` (part_003
lines 89–96). -/
structure ComputedItem where
  product : String
  sku : String
  name : String
  qty : ℚ
  image : Option String := none
  price : ℚ
  deriving DecidableEq, Repr

/-- The order document `addOrderItems` instantiates (the fields of
`new Order({...})` relevant here). -/
structure CreatedOrder where
  user : String
  orderItems : List ComputedItem
  shippingMethod : String
  estimatedDays : String
  payment : Payment
  itemsPrice : ℚ
  shippingPrice : ℚ
  taxPrice : ℚ
  discountAmount : ℚ
  coupon : Option String := none
  totalPrice : ℚ
  deriving DecidableEq, Repr

/-- The snapshot loop (part_003 lines 80–97): look every normalized item's
product up in the post-decrement store; `none` when one is missing
(`One or more products are unavailable`). -/
def computeItems (ps : ProductStore) : List (String × ℚ) →
    Option (List ComputedItem)
  | [] => some []
  | (pid, q) :: rest =>
      match lookupKey ps pid with
      | none => none
      | some p =>
          (computeItems ps rest).map (fun tl =>
            { product := pid, sku := p.sku, name := p.name, qty := q
              image := p.images.head?, price := p.price } :: tl)

/-- `itemsPrice` accumulation: `itemsPrice += unitPrice * it.qty`. -/
def itemsTotal (l : List ComputedItem) : ℚ :=
  l.foldl (fun s it => s + it.price * it.qty) 0

/-- `computedItems.reduce((sum, it) => sum + it.qty, 0)`. -/
def qtySum (l : List ComputedItem) : ℚ :=
  l.foldl (fun s it => s + it.qty) 0

/-- The pricing-and-order-construction block shared verbatim by the two
`addOrderItems` branches (part_003 lines 72–160 and 201–289): snapshot the
products, price the items, compute shipping and tax, apply the coupon (with
`orderId = null`), round the total, and build the order document. Returns
`none` for an unavailable product; otherwise the order, the coupon store
after redemption, and the redeemed code (for the action trace). -/
def buildOrder (ps : ProductStore) (cs : CouponStore) (inp : PlaceOrderInput)
    (now : ℕ) : Option (CreatedOrder × CouponStore × Option String) :=
  match computeItems ps inp.items with
  | none => none
  | some citems =>
      let itemsPrice := itemsTotal citems
      let countryCode := strOr inp.country (some "UG")
      let shippingCalc :=
        calculateShipping countryCode itemsPrice inp.shippingMethod
          (qtySum citems) 0
      let taxCalc := calculateTax countryCode itemsPrice
      let couponRes :=
        applyCouponToOrder cs inp.couponCode inp.userId none itemsPrice now
          inp.isFirstOrder
      let discountAmount := if couponRes.2.1 then couponRes.1 else 0
      let appliedCoupon := if couponRes.2.1 then couponRes.2.2.1 else none
      let totalPrice :=
        round2 (itemsPrice + shippingCalc.cost + taxCalc.amount - discountAmount)
      some
        ({ user := inp.userId
           orderItems := citems
           shippingMethod := inp.shippingMethod
           estimatedDays := shippingCalc.estimatedDays
           payment :=
             { method := strOr inp.paymentMethod (some "card")
               status := .pending, currency := some "usd" }
           itemsPrice := itemsPrice
           shippingPrice := shippingCalc.cost
           taxPrice := taxCalc.amount
           discountAmount := discountAmount
           coupon := appliedCoupon
           totalPrice := totalPrice },
         couponRes.2.2.2, appliedCoupon)

/-- The numeric `min` and enum validators of `orderSchema` that run inside
`order.save()` (string `required` validators are orthogonal and omitted). -/
def orderPassesValidation (o : CreatedOrder) : Bool :=
  o.orderItems.all (fun it => decide (1 ≤ it.qty) && decide (0 ≤ it.price)) &&
  decide (0 ≤ o.itemsPrice) && decide (0 ≤ o.shippingPrice) &&
  decide (0 ≤ o.taxPrice) && decide (0 ≤ o.discountAmount) &&
  decide (0 ≤ o.totalPrice) &&
  (o.shippingMethod == "standard" || o.shippingMethod == "express")

/-- Externally visible mutations of one `addOrderItems` run, in the order
they take effect on the stores. -/
inductive PathAction
  | decStock (pid : String) (qty : ℚ)
  | incStock (pid : String) (qty : ℚ)
  | redeemCoupon (code : String)
  | persistOrder
  deriving DecidableEq, Repr

/-- Outcome of one `addOrderItems` run: the HTTP status, the created order if
any, the stores after the run, and the action trace. -/
structure PlaceResult where
  statusCode : ℕ
  order : Option CreatedOrder := none
  products : ProductStore
  coupons : CouponStore
  trace : List PathAction := []
  deriving DecidableEq, Repr

/-- The per-item reservation loop (part_003 lines 60–70 / 187–199): conditional
decrements in item order; stops at the first failure. Returns the store after
the loop, the `decremented` accumulator in push order, and whether every item
was reserved. -/
def reserveAll : ProductStore → List (String × ℚ) →
    ProductStore × List (String × ℚ) × Bool
  | ps, [] => (ps, [], true)
  | ps, (pid, q) :: rest =>
      match decrementIfAvailable ps pid q with
      | none => (ps, [], false)
      | some ps2 =>
          let r := reserveAll ps2 rest
          (r.1, (pid, q) :: r.2.1, r.2.2)

/-- The compensating rollback (part_003 lines 297–302): an unconditional
increment for every already-decremented item. -/
def compensate (ps : ProductStore) (ds : List (String × ℚ)) : ProductStore :=
  ds.foldl (fun s d => incrementStock s d.1 d.2) ps

/-- Trace of the reservation decrements. -/
def decTrace (ds : List (String × ℚ)) : List PathAction :=
  ds.map (fun d => .decStock d.1 d.2)

/-- Trace of the compensating increments. -/
def incTrace (ds : List (String × ℚ)) : List PathAction :=
  ds.map (fun d => .incStock d.1 d.2)

/-- The fallback (compensating) branch of `addOrderItems` (part_003
lines 181–305): reserve each item with a conditional decrement; on the first
insufficient item answer 409 after compensating; price and build the order
(coupon redeemed here, before persistence); an unavailable product answers 400
after compensating; a failed `order.save()` compensates stock (never the
coupon) and surfaces 500; success persists the order and answers 201. -/
def fallbackPath (ps : ProductStore) (cs : CouponStore) (inp : PlaceOrderInput)
    (now : ℕ) : PlaceResult :=
  let r := reserveAll ps inp.items
  let ps1 := r.1
  let ds := r.2.1
  if r.2.2 = false then
    { statusCode := 409, products := compensate ps1 ds, coupons := cs
      trace := decTrace ds ++ incTrace ds }
  else
    match buildOrder ps1 cs inp now with
    | none =>
        { statusCode := 400, products := compensate ps1 ds, coupons := cs
          trace := decTrace ds ++ incTrace ds }
    | some (o, cs2, applied) =>
        let rTrace : List PathAction :=
          match applied with
          | none => []
          | some c => [.redeemCoupon c]
        if orderPassesValidation o ∧ inp.saveOk then
          { statusCode := 201, order := some o, products := ps1, coupons := cs2
            trace := decTrace ds ++ rTrace ++ [.persistOrder] }
        else
          { statusCode := 500, products := compensate ps1 ds, coupons := cs2
            trace := decTrace ds ++ rTrace ++ incTrace ds }

/-- The transactional branch of `addOrderItems` (part_003 lines 53–180): the
same conditional decrements and pricing inside a session; any failure aborts
the session, which rolls the decrements and the order back — but not the
coupon redemption, whose `coupon.save()` is not given the session. Status
mapping from the catch block: 409 insufficient stock, 400 unavailable
product, 500 otherwise. The trace lists only mutations that survived. -/
def txPath (ps : ProductStore) (cs : CouponStore) (inp : PlaceOrderInput)
    (now : ℕ) : PlaceResult :=
  let r := reserveAll ps inp.items
  let ps1 := r.1
  let ds := r.2.1
  if r.2.2 = false then
    { statusCode := 409, products := ps, coupons := cs, trace := [] }
  else
    match buildOrder ps1 cs inp now with
    | none => { statusCode := 400, products := ps, coupons := cs, trace := [] }
    | some (o, cs2, applied) =>
        let rTrace : List PathAction :=
          match applied with
          | none => []
          | some c => [.redeemCoupon c]
        if orderPassesValidation o ∧ inp.saveOk then
          { statusCode := 201, order := some o, products := ps1, coupons := cs2
            trace := decTrace ds ++ rTrace ++ [.persistOrder] }
        else
          { statusCode := 500, products := ps, coupons := cs2, trace := rTrace }

/-! ## Single-counter stock trace model (for the concurrency property)

Each store operation the two paths issue against one product's
`countInStock` is a single atomic document update; a concurrent execution is
therefore some interleaving of these atomic operations, i.e. an arbitrary
sequence. `condDec` is the guarded reservation decrement, `inc` the
compensating increment. -/

/-- One atomic operation on a product's stock counter. -/
inductive StockOp
  | condDec (q : ℚ)
  | inc (q : ℚ)
  deriving DecidableEq, Repr

/-- Run a sequence of atomic stock operations from stock `s`; a guarded
decrement whose guard fails leaves the counter unchanged. -/
def runOps : ℚ → List StockOp → ℚ
  | s, [] => s
  | s, .condDec q :: rest => runOps (if q ≤ s then s - q else s) rest
  | s, .inc q :: rest => runOps (s + q) rest

/-- Total quantity of the decrements that succeeded along the run. -/
def succDecSum : ℚ → List StockOp → ℚ
  | _, [] => 0
  | s, .condDec q :: rest =>
      (if q ≤ s then q else 0) + succDecSum (if q ≤ s then s - q else s) rest
  | s, .inc q :: rest => succDecSum (s + q) rest

/-- Total quantity of the (compensating) increments in the sequence. -/
def incSum : List StockOp → ℚ
  | [] => 0
  | .condDec _ :: rest => incSum rest
  | .inc q :: rest => q + incSum rest

/-- The quantity carried by a stock operation. -/
def opAmount : StockOp → ℚ
  | .condDec q => q
  | .inc q => q

/-- A rational is a whole number of cents: the shape every 2-decimal currency
amount (`toFixed(2)` output, catalog price) has. -/
def isCents (q : ℚ) : Prop := ∃ n : ℤ, q = (n : ℚ) / 100

/-- A rational is a whole number (an integral quantity). -/
def isWhole (q : ℚ) : Prop := ∃ n : ℤ, q = (n : ℚ)

/-- Sum of `usedCount` over the coupon collection (the global redemption
counter the Coupon Ledger maintains). -/
def totalUsed (cs : CouponStore) : ℕ := (cs.map (fun kv => kv.2.usedCount)).sum

/-- The precondition of the amount guard in `markOrderPaid` (line 24): the
order records a finite positive `payment.amount` and the event carries a
non-null `amount_received`. -/
def amountGuardArmed (o : Order) (pi : PaymentIntent) : Bool :=
  match o.payment.bind (·.amount), pi.amount_received with
  | some ea, some _ => decide (0 < ea)
  | _, _ => false

/-- The precondition of the currency guard in `markOrderPaid` (line 33): both
the recorded and the event currency are truthy. -/
def currencyGuardArmed (o : Order) (pi : PaymentIntent) : Bool :=
  match o.payment.bind (·.currency), pi.currency with
  | some ec, some c => strTruthy (some ec) && strTruthy (some c)
  | _, _ => false

/-! ## Concrete instances used to exercise the theorems -/

/-- Order with a recorded zero expected amount (storable: `paymentSchema`
only requires `amount ≥ 0`). -/
def oAmtZero : Order :=
  { status := .pending, isPaid := false
    payment := some { Payment.empty with amount := some 0, currency := some "usd" } }

/-- Succeeded intent settling 500 against `oAmtZero`. -/
def piAmt500 : PaymentIntent :=
  { id := "pi_x1", metadata_orderId := some "o1", amount_received := some 500
    currency := some "usd" }

/-- Pending order expecting 100 minor units in usd. -/
def oExp100 : Order :=
  { status := .pending, isPaid := false
    payment := some { Payment.empty with amount := some 100, currency := some "usd" } }

/-- Succeeded intent settling 200 against `oExp100`. -/
def piGot200 : PaymentIntent :=
  { id := "pi_w1", amount_received := some 200, currency := some "usd" }

/-- Order with no recorded expected amount but a recorded currency. -/
def oNoAmt : Order :=
  { status := .pending, isPaid := false
    payment := some { Payment.empty with amount := none, currency := some "usd" } }

/-- Succeeded intent in a different currency against `oNoAmt`. -/
def piEur : PaymentIntent :=
  { id := "pi_x10", amount_received := some 500, currency := some "eur" }

/-- Pending order with no payment sub-document at all. -/
def oNoPayment : Order := { status := .pending, isPaid := false, payment := none }

/-- Succeeded intent carrying an amount but no currency. -/
def piNoCurrency : PaymentIntent := { id := "pi_w10", amount_received := some 5 }

/-- Intent for the webhook-idempotency scenario. -/
def piWebhook : PaymentIntent :=
  { id := "pi_c2", metadata_orderId := some "ord1", amount_received := some 100
    currency := some "usd" }

/-- The single-order store for the webhook-idempotency scenario. -/
def osWebhook : OrderStore :=
  [("ord1",
    { status := .pending, isPaid := false
      payment :=
        some { Payment.empty with amount := some 100, currency := some "usd" } })]

/-- The dispatched handler for a concrete `payment_intent.succeeded` event. -/
def stripeHandler : OrderStore → Except String OrderStore :=
  fun s => Except.ok (dispatchStripe "payment_intent.succeeded"
    (EventObject.intent piWebhook) s 9)

/-- A handler whose `order.save()` throws. -/
def throwingHandler : OrderStore → Except String OrderStore :=
  fun _ => Except.error "save failed"

/-- Stock-1 product for the insufficient-stock scenario. -/
def psStock1 : ProductStore :=
  [("p1", { countInStock := 1, enabled := true, isDeleted := false, price := 10
            name := "widget", sku := "W1", images := [] })]

/-- Request for quantity 2 against `psStock1`. -/
def inpQty2 : PlaceOrderInput :=
  { items := [("p1", 2)], country := some "UG", userId := "u1" }

/-- Stock-10 product priced 12.99 for the domestic pricing scenario. -/
def psPriced : ProductStore :=
  [("p7", { countInStock := 10, enabled := true, isDeleted := false
            price := 1299 / 100, name := "gadget", sku := "G7", images := [] })]

/-- One-item domestic order against `psPriced`. -/
def inpPriced : PlaceOrderInput :=
  { items := [("p7", 1)], country := some "UG", userId := "u1" }

/-- The product state left after reserving one unit of `psPriced`. -/
def psPricedAfter : ProductStore :=
  [("p7", { countInStock := 9, enabled := true, isDeleted := false
            price := 1299 / 100, name := "gadget", sku := "G7", images := [] })]

/-- The line-item snapshot taken from `psPriced`. -/
def ciPriced : ComputedItem :=
  { product := "p7", sku := "G7", name := "gadget", qty := 1, image := none
    price := 1299 / 100 }

/-- The order `addOrderItems` creates for `inpPriced` over `psPriced`:
items 12.99, standard domestic shipping 5, 18% tax 2.34, total 20.33. -/
def pricedOrder : CreatedOrder :=
  { user := "u1", orderItems := [ciPriced], shippingMethod := "standard"
    estimatedDays := "3-5"
    payment := { method := some "card", status := .pending
                 currency := some "usd" }
    itemsPrice := 1299 / 100, shippingPrice := 5, taxPrice := 117 / 50
    discountAmount := 0, coupon := none, totalPrice := 2033 / 100 }

/-- Stock-5 product for the coupon-ordering scenario. -/
def psCoupon : ProductStore :=
  [("p1", { countInStock := 5, enabled := true, isDeleted := false, price := 10
            name := "widget", sku := "W1", images := [] })]

/-- A live fixed-2 coupon with one redemption allowed per user. -/
def csCoupon : CouponStore :=
  [("SAVE10",
    { code := "SAVE10", discountType := .fixed, discountValue := 2
      minOrderAmount := 0, maxDiscountAmount := none, usageLimit := none
      usageLimitPerUser := 1, usedCount := 0, validFrom := 0, validUntil := 100
      allowedUsers := [], firstOrderOnly := false, isActive := true
      usedBy := [] })]

/-- Checkout request redeeming `SAVE10`. -/
def inpCoupon : PlaceOrderInput :=
  { items := [("p1", 1)], country := some "UG", couponCode := some "SAVE10"
    userId := "u1", isFirstOrder := true }

/-- A delivered order (for the status-regression scenario). -/
def oDelivered : Order := { status := .delivered, isDelivered := true }

/-- `inpCoupon` with a failing `order.save()`. -/
def inpCouponNoSave : PlaceOrderInput := { inpCoupon with saveOk := false }

/-- `psCoupon` after reserving one unit. -/
def psCouponAfter : ProductStore :=
  [("p1", { countInStock := 4, enabled := true, isDeleted := false, price := 10
            name := "widget", sku := "W1", images := [] })]

/-- The line-item snapshot taken from `psCoupon`. -/
def ciCoupon : ComputedItem :=
  { product := "p1", sku := "W1", name := "widget", qty := 1, image := none
    price := 10 }

/-- `csCoupon` after one redemption by `u1` (order reference `null`). -/
def csCouponAfter : CouponStore :=
  [("SAVE10",
    { code := "SAVE10", discountType := .fixed, discountValue := 2
      minOrderAmount := 0, maxDiscountAmount := none, usageLimit := none
      usageLimitPerUser := 1, usedCount := 1, validFrom := 0, validUntil := 100
      allowedUsers := [], firstOrderOnly := false, isActive := true
      usedBy := [{ user := "u1", order := none, discountApplied := 2 }] })]

/-- The order built for `inpCoupon` over `psCoupon`: items 10, shipping 5,
tax 1.8, discount 2, total 14.8. -/
def couponOrder : CreatedOrder :=
  { user := "u1", orderItems := [ciCoupon], shippingMethod := "standard"
    estimatedDays := "3-5"
    payment := { method := some "card", status := .pending
                 currency := some "usd" }
    itemsPrice := 10, shippingPrice := 5, taxPrice := 9 / 5
    discountAmount := 2, coupon := some "SAVE10", totalPrice := 74 / 5 }

/-! ## Store lemmas -/

theorem lookupKey_setKey_self {K V : Type} [DecidableEq K]
    (l : List (K × V)) (k : K) (v : V) : lookupKey (setKey l k v) k = some v := by
  induction l with
  | nil => simp [setKey, lookupKey]
  | cons hd tl ih =>
      obtain ⟨k0, w⟩ := hd
      by_cases hk : k0 = k <;> simp [setKey, lookupKey, hk, ih]

theorem lookupKey_mem {K V : Type} [DecidableEq K]
    {l : List (K × V)} {k : K} {v : V} (h : lookupKey l k = some v) :
    (k, v) ∈ l := by
  induction l with
  | nil => simp [lookupKey] at h
  | cons hd tl ih =>
      obtain ⟨k0, w⟩ := hd
      by_cases hk : k0 = k
      · subst hk
        simp [lookupKey] at h
        simp [h]
      · simp [lookupKey, hk] at h
        exact List.mem_cons_of_mem _ (ih h)

theorem totalUsed_setKey {cs : CouponStore} {k : String} {c : Coupon}
    (h : lookupKey cs k = some c) (c2 : Coupon)
    (hc2 : c2.usedCount = c.usedCount + 1) :
    totalUsed (setKey cs k c2) = totalUsed cs + 1 := by
  induction cs with
  | nil => simp [lookupKey] at h
  | cons hd tl ih =>
      obtain ⟨k0, w⟩ := hd
      by_cases hk : k0 = k
      · subst hk
        simp [lookupKey] at h
        subst h
        simp [setKey, totalUsed, hc2]
        omega
      · simp [lookupKey, hk] at h
        have := ih h
        simp [setKey, hk, totalUsed] at this ⊢
        omega

theorem incrementStock_comm (s : ProductStore) (a b : String) (qa qb : ℚ) :
    incrementStock (incrementStock s a qa) b qb =
      incrementStock (incrementStock s b qb) a qa := by
  induction s with
  | nil => rfl
  | cons hd tl ih =>
      obtain ⟨k, p⟩ := hd
      by_cases ha : k = a <;> by_cases hb : k = b
      · subst ha; subst hb
        simp [incrementStock, add_right_comm]
      · subst ha
        simp [incrementStock, hb]
      · subst hb
        simp [incrementStock, ha]
      · simp [incrementStock, ha, hb, ih]

theorem compensate_cons (s : ProductStore) (d : String × ℚ)
    (ds : List (String × ℚ)) :
    compensate s (d :: ds) = compensate (incrementStock s d.1 d.2) ds := rfl

theorem compensate_incrementStock (ds : List (String × ℚ)) (s : ProductStore)
    (pid : String) (q : ℚ) :
    compensate (incrementStock s pid q) ds =
      incrementStock (compensate s ds) pid q := by
  induction ds generalizing s with
  | nil => rfl
  | cons d tl ih =>
      rw [compensate_cons, compensate_cons, incrementStock_comm, ih]

theorem incrementStock_decrement {ps ps2 : ProductStore} {pid : String}
    {q : ℚ} (h : decrementIfAvailable ps pid q = some ps2) :
    incrementStock ps2 pid q = ps := by
  induction ps generalizing ps2 with
  | nil => simp [decrementIfAvailable] at h
  | cons hd tl ih =>
      obtain ⟨k, p⟩ := hd
      by_cases hk : k = pid
      · subst hk
        simp only [decrementIfAvailable, if_pos rfl] at h
        by_cases hg : (p.enabled && !p.isDeleted && decide (q ≤ p.countInStock)) = true
        · rw [if_pos hg] at h
          obtain ⟨p0⟩ := p
          simp at h
          simp [← h, incrementStock]
        · rw [if_neg hg] at h
          simp at h
      · simp only [decrementIfAvailable, if_neg hk] at h
        cases hrec : decrementIfAvailable tl pid q with
        | none => rw [hrec] at h; simp at h
        | some tl2 =>
            rw [hrec] at h
            simp at h
            rw [← h]
            simp [incrementStock, hk, ih hrec]

theorem reserveAll_compensate (items : List (String × ℚ)) (ps : ProductStore) :
    compensate (reserveAll ps items).1 (reserveAll ps items).2.1 = ps := by
  induction items generalizing ps with
  | nil => rfl
  | cons it tl ih =>
      obtain ⟨pid, q⟩ := it
      cases hdec : decrementIfAvailable ps pid q with
      | none => simp [reserveAll, hdec, compensate]
      | some ps2 =>
          simp only [reserveAll, hdec]
          rw [compensate_cons]
          show compensate (incrementStock (reserveAll ps2 tl).1 pid q)
            (reserveAll ps2 tl).2.1 = ps
          rw [compensate_incrementStock, ih ps2, incrementStock_decrement hdec]

/-! ## Rounding and cent-amount lemmas -/

theorem isCents_zero : isCents 0 := ⟨0, by norm_num⟩

theorem isCents_add {a b : ℚ} (ha : isCents a) (hb : isCents b) :
    isCents (a + b) := by
  obtain ⟨n, rfl⟩ := ha
  obtain ⟨m, rfl⟩ := hb
  exact ⟨n + m, by push_cast; ring⟩

theorem isCents_sub {a b : ℚ} (ha : isCents a) (hb : isCents b) :
    isCents (a - b) := by
  obtain ⟨n, rfl⟩ := ha
  obtain ⟨m, rfl⟩ := hb
  exact ⟨n - m, by push_cast; ring⟩

theorem isCents_mul_whole {a b : ℚ} (ha : isCents a) (hb : isWhole b) :
    isCents (a * b) := by
  obtain ⟨n, rfl⟩ := ha
  obtain ⟨m, rfl⟩ := hb
  exact ⟨n * m, by push_cast; ring⟩

theorem round2_isCents (q : ℚ) : isCents (round2 q) := ⟨round (q * 100), rfl⟩

theorem round2_eq_self {q : ℚ} (h : isCents q) : round2 q = q := by
  obtain ⟨n, rfl⟩ := h
  unfold round2
  rw [div_mul_cancel₀ _ (by norm_num : (100 : ℚ) ≠ 0), round_intCast]

theorem itemsTotal_cents {l : List ComputedItem}
    (h : ∀ it ∈ l, isCents it.price ∧ isWhole it.qty) : isCents (itemsTotal l) := by
  suffices haux : ∀ acc : ℚ, isCents acc →
      isCents (l.foldl (fun s it => s + it.price * it.qty) acc) from
    haux 0 isCents_zero
  induction l with
  | nil => exact fun acc hacc => hacc
  | cons it tl ih =>
      intro acc hacc
      have hit := h it (List.mem_cons_self _ _)
      exact ih (fun x hx => h x (List.mem_cons_of_mem _ hx)) _
        (isCents_add hacc (isCents_mul_whole hit.1 hit.2))

theorem computeItems_fields {ps : ProductStore} :
    ∀ {items : List (String × ℚ)} {citems : List ComputedItem},
      computeItems ps items = some citems →
      (∀ kv ∈ ps, isCents kv.2.price) → (∀ i ∈ items, isWhole i.2) →
      ∀ it ∈ citems, isCents it.price ∧ isWhole it.qty := by
  intro items
  induction items with
  | nil =>
      intro citems h _ _
      simp [computeItems] at h
      subst h
      intro it hit
      simp at hit
  | cons i tl ih =>
      intro citems h hp hq
      obtain ⟨pid, q⟩ := i
      simp only [computeItems] at h
      cases hl : lookupKey ps pid with
      | none => rw [hl] at h; simp at h
      | some p =>
          rw [hl] at h
          cases hrest : computeItems ps tl with
          | none => rw [hrest] at h; simp at h
          | some ctl =>
              rw [hrest] at h
              simp at h
              subst h
              intro it hit
              rcases List.mem_cons.mp hit with hhd | htl
              · subst hhd
                refine ⟨hp _ (lookupKey_mem hl), hq (pid, q) (by simp)⟩
              · exact ih hrest hp (fun x hx => hq x (List.mem_cons_of_mem _ hx))
                  it htl

theorem calculateShipping_cost_cents (c : Option String) (t : ℚ) (m : String)
    (ic w : ℚ) : isCents (calculateShipping c t m ic w).cost := by
  simp only [calculateShipping]
  split
  · exact isCents_zero
  · exact round2_isCents _

theorem calculateTax_amount_cents (c : Option String) (s : ℚ) :
    isCents (calculateTax c s).amount := round2_isCents _

theorem calculateDiscount_cents (c : Coupon) (now : ℕ) (t : ℚ) :
    isCents (calculateDiscount c now t) := by
  unfold calculateDiscount
  split
  · exact isCents_zero
  · split
    · exact isCents_zero
    · exact round2_isCents _

theorem applyCouponToOrder_discount_cents (cs : CouponStore)
    (cc : Option String) (uid : String) (oid : Option String) (t : ℚ) (now : ℕ)
    (f : Bool) : isCents (applyCouponToOrder cs cc uid oid t now f).1 := by
  simp only [applyCouponToOrder]
  split
  · exact isCents_zero
  · split
    · exact isCents_zero
    · split
      · exact isCents_zero
      · exact calculateDiscount_cents _ _ _

theorem decrementIfAvailable_prices {P : ℚ → Prop} :
    ∀ {ps ps2 : ProductStore} {pid : String} {q : ℚ},
      decrementIfAvailable ps pid q = some ps2 →
      (∀ kv ∈ ps, P kv.2.price) → ∀ kv ∈ ps2, P kv.2.price := by
  intro ps
  induction ps with
  | nil => intro ps2 pid q h; simp [decrementIfAvailable] at h
  | cons hd tl ih =>
      intro ps2 pid q h hp
      obtain ⟨k, p⟩ := hd
      by_cases hk : k = pid
      · subst hk
        simp only [decrementIfAvailable, if_pos rfl] at h
        by_cases hg : (p.enabled && !p.isDeleted && decide (q ≤ p.countInStock)) = true
        · rw [if_pos hg] at h
          simp at h
          subst h
          intro kv hkv
          rcases List.mem_cons.mp hkv with hhd | htl
          · subst hhd
            exact hp (k, p) (by simp)
          · exact hp kv (List.mem_cons_of_mem _ htl)
        · rw [if_neg hg] at h; simp at h
      · simp only [decrementIfAvailable, if_neg hk] at h
        cases hrec : decrementIfAvailable tl pid q with
        | none => rw [hrec] at h; simp at h
        | some tl2 =>
            rw [hrec] at h
            simp at h
            subst h
            intro kv hkv
            rcases List.mem_cons.mp hkv with hhd | htl
            · subst hhd
              exact hp (k, p) (by simp)
            · exact ih hrec (fun x hx => hp x (List.mem_cons_of_mem _ hx)) kv htl

theorem reserveAll_prices {P : ℚ → Prop} :
    ∀ (items : List (String × ℚ)) (ps : ProductStore),
      (∀ kv ∈ ps, P kv.2.price) → ∀ kv ∈ (reserveAll ps items).1, P kv.2.price := by
  intro items
  induction items with
  | nil => intro ps hp kv hkv; exact hp kv hkv
  | cons i tl ih =>
      intro ps hp
      obtain ⟨pid, q⟩ := i
      cases hdec : decrementIfAvailable ps pid q with
      | none =>
          simp only [reserveAll, hdec]
          intro kv hkv
          exact hp kv hkv
      | some ps2 =>
          simp only [reserveAll, hdec]
          exact ih ps2 (decrementIfAvailable_prices hdec hp)

/-! ## Path-shape lemmas -/

theorem fallbackPath_success {ps : ProductStore} {cs : CouponStore}
    {inp : PlaceOrderInput} {now : ℕ} {o : CreatedOrder}
    (h : (fallbackPath ps cs inp now).order = some o) :
    ∃ cs2 ap, buildOrder (reserveAll ps inp.items).1 cs inp now = some (o, cs2, ap) ∧
      orderPassesValidation o = true ∧ inp.saveOk = true := by
  simp only [fallbackPath] at h
  split at h
  · simp at h
  · split at h
    · simp at h
    · rename_i o0 cs2 ap heq
      split at h
      · rename_i hvv
        simp at h
        subst h
        exact ⟨cs2, ap, heq, hvv.1, hvv.2⟩
      · simp at h

theorem txPath_success {ps : ProductStore} {cs : CouponStore}
    {inp : PlaceOrderInput} {now : ℕ} {o : CreatedOrder}
    (h : (txPath ps cs inp now).order = some o) :
    ∃ cs2 ap, buildOrder (reserveAll ps inp.items).1 cs inp now = some (o, cs2, ap) ∧
      orderPassesValidation o = true ∧ inp.saveOk = true := by
  simp only [txPath] at h
  split at h
  · simp at h
  · split at h
    · simp at h
    · rename_i o0 cs2 ap heq
      split at h
      · rename_i hvv
        simp at h
        subst h
        exact ⟨cs2, ap, heq, hvv.1, hvv.2⟩
      · simp at h

theorem buildOrder_fields {ps : ProductStore} {cs : CouponStore}
    {inp : PlaceOrderInput} {now : ℕ} {o : CreatedOrder} {cs2 : CouponStore}
    {ap : Option String}
    (h : buildOrder ps cs inp now = some (o, cs2, ap)) :
    ∃ citems, computeItems ps inp.items = some citems ∧
      o.orderItems = citems ∧
      o.itemsPrice = itemsTotal citems ∧
      o.shippingPrice = (calculateShipping (strOr inp.country (some "UG"))
        (itemsTotal citems) inp.shippingMethod (qtySum citems) 0).cost ∧
      o.taxPrice = (calculateTax (strOr inp.country (some "UG"))
        (itemsTotal citems)).amount ∧
      (o.discountAmount = 0 ∨
        o.discountAmount = (applyCouponToOrder cs inp.couponCode inp.userId none
          (itemsTotal citems) now inp.isFirstOrder).1) ∧
      o.totalPrice =
        round2 (o.itemsPrice + o.shippingPrice + o.taxPrice - o.discountAmount) := by
  simp only [buildOrder] at h
  cases hc : computeItems ps inp.items with
  | none => rw [hc] at h; simp at h
  | some citems =>
      rw [hc] at h
      simp at h
      refine ⟨citems, rfl, ?_⟩
      obtain ⟨ho, _, _⟩ := h
      subst ho
      refine ⟨rfl, rfl, rfl, rfl, ?_, rfl⟩
      by_cases hap : (applyCouponToOrder cs inp.couponCode inp.userId none
          (itemsTotal citems) now inp.isFirstOrder).2.1 = true
      · right; simp [hap]
      · left; simp [hap]

theorem findValidByCode_lookup {cs : CouponStore} {code : String} {now : ℕ}
    {c : Coupon} (h : findValidByCode cs code now = some c) :
    lookupKey cs (jsUpper code) = some c := by
  unfold findValidByCode at h
  cases hl : lookupKey cs (jsUpper code) with
  | none => rw [hl] at h; simp at h
  | some c0 =>
      rw [hl] at h
      by_cases hv : couponIsValid c0 now = true
      · simp [hv] at h
        rw [h]
      · simp [hv] at h

theorem applyCouponToOrder_result (cs : CouponStore) (cc : Option String)
    (uid : String) (oid : Option String) (t : ℚ) (now : ℕ) (f : Bool) :
    (applyCouponToOrder cs cc uid oid t now f).2.1 = false ∨
    (∃ c, lookupKey cs (jsUpper (cc.getD "")) = some c ∧
      (applyCouponToOrder cs cc uid oid t now f).2.1 = true ∧
      (applyCouponToOrder cs cc uid oid t now f).2.2.2 =
        setKey cs (jsUpper (cc.getD ""))
          { c with
            usedBy := c.usedBy ++
              [{ user := uid, order := oid
                 discountApplied := calculateDiscount c now t }]
            usedCount := c.usedCount + 1 }) := by
  simp only [applyCouponToOrder]
  split
  · left; rfl
  · split
    · left; rfl
    · rename_i c hfv
      split
      · left; rfl
      · right
        exact ⟨c, findValidByCode_lookup hfv, rfl, rfl⟩

theorem applyCouponToOrder_applied_usedCount {cs : CouponStore}
    {cc : Option String} {uid : String} {oid : Option String} {t : ℚ} {now : ℕ}
    {f : Bool}
    (h : (applyCouponToOrder cs cc uid oid t now f).2.1 = true) :
    totalUsed (applyCouponToOrder cs cc uid oid t now f).2.2.2 =
      totalUsed cs + 1 := by
  rcases applyCouponToOrder_result cs cc uid oid t now f with hf | ⟨c, hl, _, hset⟩
  · rw [h] at hf; simp at hf
  · rw [hset]
    exact totalUsed_setKey hl _ rfl

theorem buildOrder_applied_usedCount {ps : ProductStore} {cs : CouponStore}
    {inp : PlaceOrderInput} {now : ℕ} {o : CreatedOrder} {cs2 : CouponStore}
    {ap : Option String} {c : String}
    (h : buildOrder ps cs inp now = some (o, cs2, ap)) (hc : ap = some c) :
    totalUsed cs2 = totalUsed cs + 1 := by
  subst hc
  simp only [buildOrder] at h
  cases hci : computeItems ps inp.items with
  | none => rw [hci] at h; simp at h
  | some citems =>
      rw [hci] at h
      simp at h
      obtain ⟨_, hcs2, hap⟩ := h
      rw [← hcs2]
      exact applyCouponToOrder_applied_usedCount hap.1

theorem decrementIfAvailable_nonneg :
    ∀ {ps ps2 : ProductStore} {pid : String} {q : ℚ},
      decrementIfAvailable ps pid q = some ps2 →
      (∀ kv ∈ ps, 0 ≤ kv.2.countInStock) →
      ∀ kv ∈ ps2, 0 ≤ kv.2.countInStock := by
  intro ps
  induction ps with
  | nil => intro ps2 pid q h; simp [decrementIfAvailable] at h
  | cons hd tl ih =>
      intro ps2 pid q h hnn
      obtain ⟨k, p⟩ := hd
      by_cases hk : k = pid
      · subst hk
        simp only [decrementIfAvailable, if_pos rfl] at h
        by_cases hg : (p.enabled && !p.isDeleted && decide (q ≤ p.countInStock)) = true
        · rw [if_pos hg] at h
          simp at h
          subst h
          have hqle : q ≤ p.countInStock := by
            have := hg
            simp [Bool.and_eq_true, decide_eq_true_eq] at this
            exact this.2
          intro kv hkv
          rcases List.mem_cons.mp hkv with hhd | htl
          · subst hhd
            simp
            linarith
          · exact hnn kv (List.mem_cons_of_mem _ htl)
        · rw [if_neg hg] at h; simp at h
      · simp only [decrementIfAvailable, if_neg hk] at h
        cases hrec : decrementIfAvailable tl pid q with
        | none => rw [hrec] at h; simp at h
        | some tl2 =>
            rw [hrec] at h
            simp at h
            subst h
            intro kv hkv
            rcases List.mem_cons.mp hkv with hhd | htl
            · subst hhd
              exact hnn (k, p) (by simp)
            · exact ih hrec (fun x hx => hnn x (List.mem_cons_of_mem _ hx)) kv htl

/-! ## Claims -/

/-- C1, counterexample. The claim says a settled amount differing from the
amount recorded on the order never yields `isPaid = true`. Here the order
records expected amount 0 (storable, `amount` only has `min: 0`), the event
settles 500 — the amounts differ — yet `markOrderPaid` marks the order paid
and advances it to confirmed, because the amount guard is armed only for a
positive recorded amount. -/
theorem markOrderPaid_mismatch_still_paid_cex :
    (oAmtZero.payment.bind (·.amount) = some 0 ∧
     piAmt500.amount_received = some 500 ∧ (0 : ℚ) ≠ 500) ∧
    (markOrderPaid oAmtZero piAmt500 7).isPaid = true ∧
    (markOrderPaid oAmtZero piAmt500 7).status = OrderStatus.confirmed ∧
    (markOrderPaid oAmtZero piAmt500 7).payStatus = some PayStatus.paid := by
  decide

/-- C1, amended. For every verified `payment_intent.succeeded` event whose
amount or currency mismatch is one the handler's guards actually compare
(finite positive recorded amount vs. non-null settled amount, or two truthy
currencies), the order is never newly marked paid: `isPaid` and `status` are
unchanged, and the handler either leaves the order entirely untouched (the
cancelled/refunded/already-paid early returns) or records
`payment.status = failed` with a descriptive `failureReason`. -/
theorem markOrderPaid_checked_mismatch_never_paid (o : Order)
    (pi : PaymentIntent) (now : ℕ)
    (h : amountMismatch o pi = true ∨ currencyMismatch o pi = true) :
    (markOrderPaid o pi now).isPaid = o.isPaid ∧
    (markOrderPaid o pi now).status = o.status ∧
    (markOrderPaid o pi now = o ∨
      ((markOrderPaid o pi now).payStatus = some PayStatus.failed ∧
       ((markOrderPaid o pi now).payment.bind (·.failureReason)).isSome = true)) := by
  unfold markOrderPaid
  by_cases h1 : o.status = .cancelled ∨ o.status = .refunded
  · simp [h1]
  · rw [if_neg h1]
    by_cases h2 : o.isPaid = true ∨ o.payStatus = some .paid
    · simp [h2]
    · rw [if_neg h2]
      by_cases ham : amountMismatch o pi = true
      · rw [if_pos ham]
        simp [Order.payStatus]
      · rw [if_neg ham]
        have hcm : currencyMismatch o pi = true := by
          rcases h with h | h
          · exact absurd h ham
          · exact h
        rw [if_pos hcm]
        simp [Order.payStatus]

/-- C1, witness: expected 100, settled 200 — the guard fires, the order stays
unpaid and is marked failed. -/
theorem markOrderPaid_checked_mismatch_never_paid_witness :
    (markOrderPaid oExp100 piGot200 3).isPaid = false ∧
    (markOrderPaid oExp100 piGot200 3).payStatus = some PayStatus.failed := by
  have H := markOrderPaid_checked_mismatch_never_paid oExp100 piGot200 3
    (Or.inl (by decide))
  refine ⟨?_, ?_⟩
  · rw [H.1]; decide
  · rcases H.2.2 with he | hf
    · exact absurd he (by decide)
    · exact hf.1

/-- C10, counterexample. The claim says that when any comparison precondition
fails, a verified succeeded event marks the order paid with no comparison at
all. Here the amount precondition fails (no recorded amount), yet the
currency comparison still runs, detects `eur ≠ usd`, and the order is marked
failed, not paid. -/
theorem markOrderPaid_guards_independent_cex :
    (amountGuardArmed oNoAmt piEur = false ∧
     oNoAmt.payment.bind (·.amount) = none) ∧
    (markOrderPaid oNoAmt piEur 2).isPaid = false ∧
    (markOrderPaid oNoAmt piEur 2).payStatus = some PayStatus.failed ∧
    (markOrderPaid oNoAmt piEur 2).status = OrderStatus.pending := by
  decide

/-- C10, amended. The two comparisons are guarded independently: the amount is
compared only when the order records a finite positive `payment.amount` and
the event carries `amount_received`; the currency only when both currencies
are truthy. A failed precondition skips only its own comparison. When neither
guard is armed and the order is non-terminal and unpaid, the event marks the
order paid with no comparison at all (`isPaid = true`, pending → confirmed). -/
theorem markOrderPaid_unarmed_guards_marks_paid (o : Order) (pi : PaymentIntent)
    (now : ℕ)
    (hterm : ¬(o.status = .cancelled ∨ o.status = .refunded))
    (hpaid : ¬(o.isPaid = true ∨ o.payStatus = some .paid))
    (hA : amountGuardArmed o pi = false)
    (hC : currencyGuardArmed o pi = false) :
    (markOrderPaid o pi now).isPaid = true ∧
    (markOrderPaid o pi now).payStatus = some PayStatus.paid ∧
    (o.status = .pending → (markOrderPaid o pi now).status = .confirmed) := by
  have ham : amountMismatch o pi = false := by
    unfold amountMismatch
    unfold amountGuardArmed at hA
    cases hx : o.payment.bind (·.amount) with
    | none => rfl
    | some ea =>
        cases hy : pi.amount_received with
        | none => rfl
        | some ar =>
            rw [hx, hy] at hA
            simp at hA ⊢
            intro hlt
            exact absurd hlt (not_lt.mpr hA)
  have hcm : currencyMismatch o pi = false := by
    unfold currencyMismatch
    unfold currencyGuardArmed at hC
    cases hx : o.payment.bind (·.currency) with
    | none => rfl
    | some ec =>
        cases hy : pi.currency with
        | none => rfl
        | some c =>
            rw [hx, hy] at hC
            simp at hC ⊢
            intro hec hc
            have hfc := hC hec
            rw [hfc] at hc
            simp at hc
  refine ⟨?_, ?_, ?_⟩
  · simp [markOrderPaid, hterm, hpaid, ham, hcm]
  · unfold markOrderPaid
    rw [if_neg hterm, if_neg hpaid]
    simp [ham, hcm, Order.payStatus]
  · intro hp
    unfold markOrderPaid
    rw [if_neg hterm, if_neg hpaid]
    simp [ham, hcm, hp]

/-- C10, witness: no payment sub-document and no event currency — both guards
unarmed, the order is marked paid and confirmed with nothing compared. -/
theorem markOrderPaid_unarmed_guards_marks_paid_witness :
    (markOrderPaid oNoPayment piNoCurrency 1).isPaid = true ∧
    (markOrderPaid oNoPayment piNoCurrency 1).status = OrderStatus.confirmed := by
  have H := markOrderPaid_unarmed_guards_marks_paid oNoPayment piNoCurrency 1
    (by decide) (by decide) (by decide) (by decide)
  exact ⟨H.1, H.2.2 (by decide)⟩

/-- C2. Delivering the same `(provider, eventId)` payload twice mutates the
Order store exactly once: the first delivery creates the WebhookEvent record
with `attempts = 1` and runs the handler; the second delivery (the record now
has `processedAt`) only increments `attempts` and answers
`{received, duplicate: true}` with the Order store untouched — and so does
every later delivery of a processed record, from any state. -/
theorem webhook_duplicate_delivery_single_mutation
    (h : OrderStore → Except String OrderStore) (L : Ledger) (os o1 : OrderStore)
    (prov eid ty : String) (oid : Option String) (t1 t2 : ℕ)
    (hid : ¬eid = "") (habs : lookupKey L (prov, eid) = none)
    (hok : h os = .ok o1) :
    let r1 := processWebhookEvent h L os prov eid ty oid t1
    let r2 := processWebhookEvent h r1.2.1 r1.2.2 prov eid ty oid t2
    ((lookupKey r1.2.1 (prov, eid)).map (·.attempts) = some 1 ∧
     r1.2.2 = o1 ∧ r1.1 = ⟨200, false⟩) ∧
    ((lookupKey r2.2.1 (prov, eid)).map (·.attempts) = some 2 ∧
     r2.2.2 = o1 ∧ r2.1 = ⟨200, true⟩) ∧
    (∀ (L2 : Ledger) (os2 : OrderStore) (rec : EventRecord) (t3 : ℕ),
       lookupKey L2 (prov, eid) = some rec → rec.processedAt.isSome = true →
       (processWebhookEvent h L2 os2 prov eid ty oid t3).2.2 = os2 ∧
       (processWebhookEvent h L2 os2 prov eid ty oid t3).1 = ⟨200, true⟩ ∧
       (lookupKey (processWebhookEvent h L2 os2 prov eid ty oid t3).2.1
          (prov, eid)).map (·.attempts) = some (rec.attempts + 1)) := by
  refine ⟨?_, ?_, ?_⟩
  · simp [processWebhookEvent, hid, habs, hok, lookupKey_setKey_self]
  · simp [processWebhookEvent, hid, habs, hok, lookupKey_setKey_self]
  · intro L2 os2 rec t3 hrec hproc
    simp [processWebhookEvent, hid, hrec, hproc, lookupKey_setKey_self]

/-- C2, witness: a concrete succeeded event delivered twice over an empty
ledger; the second response is flagged duplicate and the single order is
mutated once. -/
theorem webhook_duplicate_delivery_single_mutation_witness :
    ((processWebhookEvent stripeHandler
        (processWebhookEvent stripeHandler [] osWebhook "stripe" "evt_1"
          "payment_intent.succeeded" (some "ord1") 4).2.1
        (processWebhookEvent stripeHandler [] osWebhook "stripe" "evt_1"
          "payment_intent.succeeded" (some "ord1") 4).2.2
        "stripe" "evt_1" "payment_intent.succeeded" (some "ord1") 6).1 =
      ⟨200, true⟩) ∧
    (processWebhookEvent stripeHandler
        (processWebhookEvent stripeHandler [] osWebhook "stripe" "evt_1"
          "payment_intent.succeeded" (some "ord1") 4).2.1
        (processWebhookEvent stripeHandler [] osWebhook "stripe" "evt_1"
          "payment_intent.succeeded" (some "ord1") 4).2.2
        "stripe" "evt_1" "payment_intent.succeeded" (some "ord1") 6).2.2 =
      dispatchStripe "payment_intent.succeeded" (EventObject.intent piWebhook)
        osWebhook 9 := by
  have H := webhook_duplicate_delivery_single_mutation stripeHandler [] osWebhook
    (dispatchStripe "payment_intent.succeeded" (EventObject.intent piWebhook)
      osWebhook 9)
    "stripe" "evt_1" "payment_intent.succeeded" (some "ord1") 4 6
    (by decide) rfl rfl
  exact ⟨H.2.1.2.2, H.2.1.2.1⟩

/-- C3. `processedAt` is stamped only after the dispatched handler returns
without throwing: on a handler error over an unprocessed (or absent) record,
the response is HTTP 500, the record keeps `processedAt` unset and records
`lastError`, and the Order store is untouched — and for any handler, a
stamped `processedAt` implies the handler returned `.ok`. -/
theorem webhook_processedAt_only_after_success
    (h : OrderStore → Except String OrderStore) (L : Ledger) (os : OrderStore)
    (prov eid ty : String) (oid : Option String) (now : ℕ) (msg : String)
    (hid : ¬eid = "")
    (hunproc : (lookupKey L (prov, eid)).bind (·.processedAt) = none)
    (hfail : h os = .error msg) :
    (processWebhookEvent h L os prov eid ty oid now).1.status = 500 ∧
    (lookupKey (processWebhookEvent h L os prov eid ty oid now).2.1
       (prov, eid)).map (·.processedAt) = some none ∧
    (lookupKey (processWebhookEvent h L os prov eid ty oid now).2.1
       (prov, eid)).map (·.lastError) = some (some msg) ∧
    (processWebhookEvent h L os prov eid ty oid now).2.2 = os ∧
    (∀ g : OrderStore → Except String OrderStore,
       ((lookupKey (processWebhookEvent g L os prov eid ty oid now).2.1
           (prov, eid)).bind (·.processedAt)).isSome = true →
       ∃ os2, g os = .ok os2) := by
  cases hL : lookupKey L (prov, eid) with
  | none =>
      refine ⟨?_, ?_, ?_, ?_, ?_⟩ <;>
        try simp [processWebhookEvent, hid, hL, hfail, lookupKey_setKey_self]
      intro g hg
      cases hgos : g os with
      | error e =>
          simp [processWebhookEvent, hid, hL, hgos, lookupKey_setKey_self] at hg
      | ok os2 => exact ⟨os2, rfl⟩
  | some rec =>
      rw [hL] at hunproc
      simp at hunproc
      refine ⟨?_, ?_, ?_, ?_, ?_⟩ <;>
        try simp [processWebhookEvent, hid, hL, hunproc, hfail,
          lookupKey_setKey_self]
      intro g hg
      cases hgos : g os with
      | error e =>
          simp [processWebhookEvent, hid, hL, hunproc, hgos,
            lookupKey_setKey_self] at hg
      | ok os2 => exact ⟨os2, rfl⟩

/-- C3, witness: a throwing handler over an empty ledger — 500, `lastError`
recorded, `processedAt` still unset, orders untouched. -/
theorem webhook_processedAt_only_after_success_witness :
    (processWebhookEvent throwingHandler [] osWebhook "stripe" "evt_9"
       "payment_intent.succeeded" (some "ord1") 5).1.status = 500 ∧
    (lookupKey (processWebhookEvent throwingHandler [] osWebhook "stripe"
        "evt_9" "payment_intent.succeeded" (some "ord1") 5).2.1
       ("stripe", "evt_9")).map (·.processedAt) = some none ∧
    (processWebhookEvent throwingHandler [] osWebhook "stripe" "evt_9"
       "payment_intent.succeeded" (some "ord1") 5).2.2 = osWebhook := by
  have H := webhook_processedAt_only_after_success throwingHandler [] osWebhook
    "stripe" "evt_9" "payment_intent.succeeded" (some "ord1") 5 "save failed"
    (by decide) rfl rfl
  exact ⟨H.1, H.2.1, H.2.2.2.1⟩

/-- C4. Under any interleaving of the atomic per-document stock operations
both `addOrderItems` paths issue (guarded conditional decrements and
compensating increments, each a single `updateOne` the store serializes), the
counter never goes negative, it always equals the initial stock minus the
outstanding reservations, and the reservations still held never sum beyond
the initial stock `N`; and the guarded decrement `decrementIfAvailable`
preserves non-negative stock across the whole product store. -/
theorem conditional_decrement_no_oversell (N : ℚ) (ops : List StockOp)
    (hN : 0 ≤ N) (hpos : ∀ op ∈ ops, 0 ≤ opAmount op) :
    (0 ≤ runOps N ops ∧
     runOps N ops = N - succDecSum N ops + incSum ops ∧
     succDecSum N ops - incSum ops ≤ N) ∧
    (∀ {ps ps2 : ProductStore} {pid : String} {q : ℚ},
       decrementIfAvailable ps pid q = some ps2 →
       (∀ kv ∈ ps, 0 ≤ kv.2.countInStock) →
       ∀ kv ∈ ps2, 0 ≤ kv.2.countInStock) := by
  have main : ∀ (l : List StockOp) (s : ℚ), 0 ≤ s →
      (∀ op ∈ l, 0 ≤ opAmount op) →
      0 ≤ runOps s l ∧ runOps s l = s - succDecSum s l + incSum l := by
    intro l
    induction l with
    | nil =>
        intro s hs _
        exact ⟨by simpa [runOps] using hs, by simp [runOps, succDecSum, incSum]⟩
    | cons op tl ih =>
        intro s hs hl
        have hop : 0 ≤ opAmount op := hl op (List.mem_cons_self _ _)
        have htl : ∀ x ∈ tl, 0 ≤ opAmount x :=
          fun x hx => hl x (List.mem_cons_of_mem _ hx)
        cases op with
        | condDec q =>
            by_cases hq : q ≤ s
            · have H := ih (s - q) (by linarith) htl
              refine ⟨by simpa [runOps, hq] using H.1, ?_⟩
              simp only [runOps, succDecSum, incSum, if_pos hq]
              rw [H.2]
              ring
            · have H := ih s hs htl
              refine ⟨by simpa [runOps, hq] using H.1, ?_⟩
              simp only [runOps, succDecSum, incSum, if_neg hq]
              rw [H.2]
              ring
        | inc q =>
            have hq0 : 0 ≤ q := by simpa [opAmount] using hop
            have H := ih (s + q) (by linarith) htl
            refine ⟨by simpa [runOps] using H.1, ?_⟩
            simp only [runOps, succDecSum, incSum]
            rw [H.2]
            ring
  obtain ⟨h1, h2⟩ := main ops N hN hpos
  exact ⟨⟨h1, h2, by linarith⟩, fun h hnn => decrementIfAvailable_nonneg h hnn⟩

/-- C4, witness: stock 5, two concurrent reservations of 3 of which only one
can succeed, then a compensating release of 3. -/
theorem conditional_decrement_no_oversell_witness :
    0 ≤ runOps 5 [StockOp.condDec 3, StockOp.condDec 3, StockOp.inc 3] ∧
    succDecSum 5 [StockOp.condDec 3, StockOp.condDec 3, StockOp.inc 3] -
      incSum [StockOp.condDec 3, StockOp.condDec 3, StockOp.inc 3] ≤ 5 := by
  have H := conditional_decrement_no_oversell 5
    [StockOp.condDec 3, StockOp.condDec 3, StockOp.inc 3]
    (by norm_num)
    (by intro op hop; fin_cases hop <;> norm_num [opAmount])
  exact ⟨H.1.1, H.1.2.2⟩

/-- C5. In the fallback branch every run that does not create an order leaves
the product store exactly at its pre-attempt state (the compensating
increments cover every already-decremented item), and a failed reservation
answers 409 with stock unchanged. -/
theorem fallback_failure_restores_stock (ps : ProductStore) (cs : CouponStore)
    (inp : PlaceOrderInput) (now : ℕ) :
    ((fallbackPath ps cs inp now).order = none →
       (fallbackPath ps cs inp now).products = ps) ∧
    ((reserveAll ps inp.items).2.2 = false →
       (fallbackPath ps cs inp now).statusCode = 409 ∧
       (fallbackPath ps cs inp now).products = ps) := by
  have hres := reserveAll_compensate inp.items ps
  simp only [fallbackPath]
  split
  · exact ⟨fun _ => hres, fun _ => ⟨rfl, hres⟩⟩
  · rename_i hok
    split
    · exact ⟨fun _ => hres, fun hf => absurd hf hok⟩
    · rename_i o cs2 ap heq
      split
      · exact ⟨fun hnone => Option.noConfusion hnone, fun hf => absurd hf hok⟩
      · exact ⟨fun _ => hres, fun hf => absurd hf hok⟩

/-- C5, witness: the spec's scenario — quantity 2 against stock 1 gives 409
and the stock stays 1. -/
theorem fallback_failure_restores_stock_witness :
    (fallbackPath psStock1 [] inpQty2 0).statusCode = 409 ∧
    (fallbackPath psStock1 [] inpQty2 0).products = psStock1 := by
  have H := fallback_failure_restores_stock psStock1 [] inpQty2 0
  refine H.2 ?_
  norm_num [reserveAll, decrementIfAvailable, psStock1, inpQty2]

/-- C6. The transactional branch and the compensating fallback branch of
`addOrderItems` are observationally equivalent on every input: same status
code (409 insufficient stock, 400 unavailable product, 201 success, 500
otherwise), same created order, same final product stock, and same coupon
store. -/
theorem tx_and_fallback_equivalent (ps : ProductStore) (cs : CouponStore)
    (inp : PlaceOrderInput) (now : ℕ) :
    (txPath ps cs inp now).statusCode = (fallbackPath ps cs inp now).statusCode ∧
    (txPath ps cs inp now).order = (fallbackPath ps cs inp now).order ∧
    (txPath ps cs inp now).products = (fallbackPath ps cs inp now).products ∧
    (txPath ps cs inp now).coupons = (fallbackPath ps cs inp now).coupons := by
  have hres := reserveAll_compensate inp.items ps
  by_cases hok : (reserveAll ps inp.items).2.2 = false
  · simp [txPath, fallbackPath, hok, hres]
  · cases hb : buildOrder (reserveAll ps inp.items).1 cs inp now with
    | none => simp [txPath, fallbackPath, hok, hb, hres]
    | some t =>
        obtain ⟨o, cs2, ap⟩ := t
        by_cases hv : orderPassesValidation o = true ∧ inp.saveOk = true
        · simp [txPath, fallbackPath, hok, hb, hv]
        · simp [txPath, fallbackPath, hok, hb, hv, hres]

/-- C7. For every order either `addOrderItems` branch creates (from a catalog
whose prices are whole cents and a request with whole-number quantities), the
persisted pricing fields are all non-negative and the total satisfies
`totalPrice = max 0 (itemsPrice + shippingPrice + taxPrice - discountAmount)`:
the rounding is exact on cent amounts, and `orderSchema`'s `min: 0`
validators mean no order with a negative total is ever persisted. -/
theorem addOrderItems_pricing_identity (ps : ProductStore) (cs : CouponStore)
    (inp : PlaceOrderInput) (now : ℕ)
    (hp : ∀ kv ∈ ps, isCents kv.2.price)
    (hq : ∀ i ∈ inp.items, isWhole i.2) :
    ∀ o : CreatedOrder,
      ((fallbackPath ps cs inp now).order = some o ∨
       (txPath ps cs inp now).order = some o) →
      0 ≤ o.itemsPrice ∧ 0 ≤ o.shippingPrice ∧ 0 ≤ o.taxPrice ∧
      0 ≤ o.discountAmount ∧ 0 ≤ o.totalPrice ∧
      o.totalPrice =
        max 0 (o.itemsPrice + o.shippingPrice + o.taxPrice - o.discountAmount) := by
  intro o ho
  have hsucc : ∃ cs2 ap,
      buildOrder (reserveAll ps inp.items).1 cs inp now = some (o, cs2, ap) ∧
      orderPassesValidation o = true ∧ inp.saveOk = true := by
    rcases ho with ho | ho
    · exact fallbackPath_success ho
    · exact txPath_success ho
  obtain ⟨cs2, ap, hb, hval, -⟩ := hsucc
  obtain ⟨citems, hci, hoi, hip, hsp, htp, hda, htot⟩ := buildOrder_fields hb
  have hv := hval
  simp only [orderPassesValidation, Bool.and_eq_true, Bool.or_eq_true,
    decide_eq_true_eq, List.all_eq_true] at hv
  obtain ⟨⟨⟨⟨⟨⟨-, hip0⟩, hsp0⟩, htp0⟩, hda0⟩, htot0⟩, -⟩ := hv
  have hp1 : ∀ kv ∈ (reserveAll ps inp.items).1, isCents kv.2.price :=
    reserveAll_prices inp.items ps hp
  have hfields := computeItems_fields hci hp1 hq
  have hic : isCents o.itemsPrice := by
    rw [hip]; exact itemsTotal_cents hfields
  have hsc : isCents o.shippingPrice := by
    rw [hsp]; exact calculateShipping_cost_cents _ _ _ _ _
  have htc : isCents o.taxPrice := by
    rw [htp]; exact calculateTax_amount_cents _ _
  have hdc : isCents o.discountAmount := by
    rcases hda with h | h
    · rw [h]; exact isCents_zero
    · rw [h]; exact applyCouponToOrder_discount_cents _ _ _ _ _ _ _
  have hxc : isCents (o.itemsPrice + o.shippingPrice + o.taxPrice -
      o.discountAmount) :=
    isCents_sub (isCents_add (isCents_add hic hsc) htc) hdc
  have htoteq : o.totalPrice =
      o.itemsPrice + o.shippingPrice + o.taxPrice - o.discountAmount := by
    rw [htot]; exact round2_eq_self hxc
  refine ⟨hip0, hsp0, htp0, hda0, htot0, ?_⟩
  rw [htoteq]
  exact (max_eq_right (htoteq ▸ htot0)).symm

/-- C7, witness: the spec's scenario — one item priced 12.99, quantity 1,
domestic (`UG`): `itemsPrice = 12.99`, standard shipping 5, 18% tax 2.34,
total 20.33, all non-negative, and the clamped identity holds. -/
theorem addOrderItems_pricing_identity_witness :
    (fallbackPath psPriced [] inpPriced 0).order = some pricedOrder ∧
    pricedOrder.totalPrice =
      max 0 (pricedOrder.itemsPrice + pricedOrder.shippingPrice +
        pricedOrder.taxPrice - pricedOrder.discountAmount) := by
  have hdec : decrementIfAvailable psPriced "p7" 1 = some psPricedAfter := by
    norm_num [decrementIfAvailable, psPriced, psPricedAfter]
  have hresv : reserveAll psPriced [("p7", 1)] =
      (psPricedAfter, [("p7", 1)], true) := by
    simp [reserveAll, hdec]
  have hitems : computeItems psPricedAfter [("p7", 1)] = some [ciPriced] := rfl
  have hip : itemsTotal [ciPriced] = 1299 / 100 := by
    norm_num [itemsTotal, ciPriced]
  have hqs : qtySum [ciPriced] = 1 := by
    norm_num [qtySum, ciPriced]
  have hju : jsUpper "UG" = "UG" := by decide
  have hreg : getShippingRegion (some "UG") = "UG" := by decide
  have hship : calculateShipping (some "UG") (1299 / 100) "standard" 1 0 =
      { cost := 5, method := "standard", estimatedDays := "3-5"
        isFree := false } := by
    norm_num [calculateShipping, hreg, SHIPPING_RATES, rateFor, round2,
      round_eq]
  have htax : calculateTax (some "UG") (1299 / 100) =
      { rate := 18 / 100, amount := 117 / 50 } := by
    norm_num [calculateTax, taxRate, hju, round2, round_eq]
  have happly : applyCouponToOrder [] none "u1" none (1299 / 100) 0 false =
      (0, false, none, []) := rfl
  have hbuild : buildOrder psPricedAfter [] inpPriced 0 =
      some (pricedOrder, [], none) := by
    simp only [buildOrder, inpPriced, hitems, hip, hqs, strOr, strTruthy,
      hship, htax, happly]
    norm_num [pricedOrder, ciPriced, round2, round_eq, hship, htax]
  have hval : orderPassesValidation pricedOrder = true := by
    norm_num [orderPassesValidation, pricedOrder, ciPriced]
  have hIt : inpPriced.items = [("p7", 1)] := rfl
  have hSv : inpPriced.saveOk = true := rfl
  have horder : (fallbackPath psPriced [] inpPriced 0).order =
      some pricedOrder := by
    simp [fallbackPath, hIt, hSv, hresv, hbuild, hval]
  have hp : ∀ kv ∈ psPriced, isCents kv.2.price := by
    intro kv hkv
    simp [psPriced] at hkv
    rw [hkv]
    exact ⟨1299, by norm_num⟩
  have hq : ∀ i ∈ inpPriced.items, isWhole i.2 := by
    intro i hi
    simp [inpPriced] at hi
    rw [hi]
    exact ⟨1, by norm_num⟩
  refine ⟨horder, ?_⟩
  have H := addOrderItems_pricing_identity psPriced [] inpPriced 0 hp hq
    pricedOrder (Or.inl horder)
  exact H.2.2.2.2.2

/-- Evaluation of the coupon checkout scenario: with `SAVE10` applied, the
successful run's action trace and the failing-save run's outcome. -/
theorem couponRun_eval :
    (fallbackPath psCoupon csCoupon inpCoupon 50).trace =
      [PathAction.decStock "p1" 1, PathAction.redeemCoupon "SAVE10",
       PathAction.persistOrder] ∧
    (fallbackPath psCoupon csCoupon inpCoupon 50).order = some couponOrder ∧
    (fallbackPath psCoupon csCoupon inpCouponNoSave 50).order = none ∧
    PathAction.redeemCoupon "SAVE10" ∈
      (fallbackPath psCoupon csCoupon inpCouponNoSave 50).trace ∧
    (fallbackPath psCoupon csCoupon inpCouponNoSave 50).coupons =
      csCouponAfter := by
  have hdecC : decrementIfAvailable psCoupon "p1" 1 = some psCouponAfter := by
    norm_num [decrementIfAvailable, psCoupon, psCouponAfter]
  have hresv : reserveAll psCoupon [("p1", 1)] =
      (psCouponAfter, [("p1", 1)], true) := by
    simp [reserveAll, hdecC]
  have hitems : computeItems psCouponAfter [("p1", 1)] = some [ciCoupon] := rfl
  have hip : itemsTotal [ciCoupon] = 10 := by norm_num [itemsTotal, ciCoupon]
  have hqs : qtySum [ciCoupon] = 1 := by norm_num [qtySum, ciCoupon]
  have hreg : getShippingRegion (some "UG") = "UG" := by decide
  have hju : jsUpper "UG" = "UG" := by decide
  have hship : calculateShipping (some "UG") 10 "standard" 1 0 =
      { cost := 5, method := "standard", estimatedDays := "3-5"
        isFree := false } := by
    norm_num [calculateShipping, hreg, SHIPPING_RATES, rateFor, round2,
      round_eq]
  have htax : calculateTax (some "UG") 10 =
      { rate := 18 / 100, amount := 9 / 5 } := by
    norm_num [calculateTax, taxRate, hju, round2, round_eq]
  have hjus : jsUpper "SAVE10" = "SAVE10" := by decide
  have happly : applyCouponToOrder csCoupon (some "SAVE10") "u1" none 10 50
      true = (2, true, some "SAVE10", csCouponAfter) := by
    norm_num [applyCouponToOrder, findValidByCode, canBeUsedBy, couponIsValid,
      calculateDiscount, strTruthy, csCoupon, csCouponAfter, lookupKey, setKey,
      round2, round_eq, hjus]
    decide
  have hbuild1 : buildOrder psCouponAfter csCoupon inpCoupon 50 =
      some (couponOrder, csCouponAfter, some "SAVE10") := by
    simp only [buildOrder, inpCoupon, hitems, hip, hqs, strOr, strTruthy,
      hship, htax, happly]
    norm_num [couponOrder, ciCoupon, round2, round_eq, hship, htax]
  have hbuild2 : buildOrder psCouponAfter csCoupon inpCouponNoSave 50 =
      some (couponOrder, csCouponAfter, some "SAVE10") := by
    simp only [buildOrder, inpCouponNoSave, inpCoupon, hitems, hip, hqs, strOr,
      strTruthy, hship, htax, happly]
    norm_num [couponOrder, ciCoupon, round2, round_eq, hship, htax]
  have hval : orderPassesValidation couponOrder = true := by
    norm_num [orderPassesValidation, couponOrder, ciCoupon]
  have hIt1 : inpCoupon.items = [("p1", 1)] := rfl
  have hSv1 : inpCoupon.saveOk = true := rfl
  have hIt2 : inpCouponNoSave.items = [("p1", 1)] := rfl
  have hSv2 : inpCouponNoSave.saveOk = false := rfl
  refine ⟨?_, ?_, ?_, ?_, ?_⟩ <;>
    simp [fallbackPath, hIt1, hSv1, hIt2, hSv2, hresv, hbuild1, hbuild2, hval,
      decTrace, incTrace]

/-- C8, counterexample. The claim says coupon redemption happens only after
the order aggregate is committed. In a successful coupon checkout the action
trace is decrement → redeem → persist: the redemption strictly precedes order
persistence. And when `order.save()` fails after redemption, the usage stays
recorded (`usedCount` incremented, with a null order reference) although no
order ever materialized. -/
theorem coupon_redeemed_before_commit_cex :
    ((fallbackPath psCoupon csCoupon inpCoupon 50).trace =
      [PathAction.decStock "p1" 1, PathAction.redeemCoupon "SAVE10",
       PathAction.persistOrder]) ∧
    (fallbackPath psCoupon csCoupon inpCouponNoSave 50).order = none ∧
    totalUsed (fallbackPath psCoupon csCoupon inpCouponNoSave 50).coupons =
      totalUsed csCoupon + 1 := by
  obtain ⟨h1, -, h3, -, h5⟩ := couponRun_eval
  refine ⟨h1, h3, ?_⟩
  rw [h5]
  decide

/-- C8, amended. In the fallback branch, coupon redemption is performed after
inventory reservation but before order persistence: a successful run that
redeemed a coupon has trace `decrements ++ [redeem, persist]`; and when the
order is never created although a redemption happened (failed save), the
coupon's usage count remains incremented — the redemption is not compensated. -/
theorem fallback_redeems_coupon_before_persist (ps : ProductStore)
    (cs : CouponStore) (inp : PlaceOrderInput) (now : ℕ) :
    (∀ (c : String) (o : CreatedOrder),
       (fallbackPath ps cs inp now).order = some o →
       PathAction.redeemCoupon c ∈ (fallbackPath ps cs inp now).trace →
       (fallbackPath ps cs inp now).trace =
         decTrace (reserveAll ps inp.items).2.1 ++
           [PathAction.redeemCoupon c, PathAction.persistOrder]) ∧
    (∀ c : String,
       PathAction.redeemCoupon c ∈ (fallbackPath ps cs inp now).trace →
       (fallbackPath ps cs inp now).order = none →
       totalUsed (fallbackPath ps cs inp now).coupons = totalUsed cs + 1) := by
  simp only [fallbackPath]
  split
  · constructor
    · intro c o hord
      exact Option.noConfusion hord
    · intro c hc
      simp [decTrace, incTrace] at hc
  · rename_i hok
    split
    · constructor
      · intro c o hord
        exact Option.noConfusion hord
      · intro c hc
        simp [decTrace, incTrace] at hc
    · rename_i o cs2 ap heq
      split
      · constructor
        · intro c o2 hord hc
          cases ap with
          | none => simp [decTrace] at hc
          | some c0 =>
              simp [decTrace] at hc
              subst hc
              simp
        · intro c hc hord
          exact Option.noConfusion hord
      · constructor
        · intro c o2 hord
          exact Option.noConfusion hord
        · intro c hc hord
          cases ap with
          | none => simp [decTrace, incTrace] at hc
          | some c0 => exact buildOrder_applied_usedCount heq rfl

/-- C8, witness: the concrete `SAVE10` runs — the successful trace is
decrement, redeem, persist; the failed-save run leaves `usedCount`
incremented with no order. -/
theorem fallback_redeems_coupon_before_persist_witness :
    ((fallbackPath psCoupon csCoupon inpCoupon 50).trace =
      decTrace (reserveAll psCoupon inpCoupon.items).2.1 ++
        [PathAction.redeemCoupon "SAVE10", PathAction.persistOrder]) ∧
    totalUsed (fallbackPath psCoupon csCoupon inpCouponNoSave 50).coupons =
      totalUsed csCoupon + 1 := by
  obtain ⟨h1, h2, h3, h4, -⟩ := couponRun_eval
  constructor
  · exact (fallback_redeems_coupon_before_persist psCoupon csCoupon inpCoupon
      50).1 "SAVE10" couponOrder h2 (by rw [h1]; simp)
  · exact (fallback_redeems_coupon_before_persist psCoupon csCoupon
      inpCouponNoSave 50).2 "SAVE10" h4 h3

/-- C9, counterexample. The claim says `updateOrderStatus` rejects regressions
as a validation error. A delivered order updated with requested status
`processing` is silently accepted: the save succeeds and the order's status
regresses from `delivered` to `processing`. -/
theorem updateOrderStatus_regression_cex :
    (updateOrderStatus oDelivered "processing" none none none 5).map (·.status)
      = some OrderStatus.processing ∧
    oDelivered.status = OrderStatus.delivered ∧
    oDelivered.isDelivered = true := by
  decide

/-- C9, amended. `updateOrderStatus` applies whatever requested status parses
against the schema enum — including regressions such as delivered back to
processing — without any transition check; the only rejection is schema enum
validation of the status strings. -/
theorem updateOrderStatus_applies_requested (o : Order) (reqStatus : String)
    (ship track cour : Option String) (now : ℕ) (st : OrderStatus)
    (hst : statusOfString reqStatus = some st)
    (hship : (match ship with
              | none => true
              | some s => shipStatusAllowed s) = true) :
    ∃ o2, updateOrderStatus o reqStatus ship track cour now = some o2 ∧
      o2.status = st := by
  simp only [updateOrderStatus, hst, hship, if_true]
  exact ⟨_, rfl, rfl⟩

/-- C9, witness: delivered → processing is applied, not rejected. -/
theorem updateOrderStatus_applies_requested_witness :
    ∃ o2, updateOrderStatus oDelivered "processing" none none none 3 =
      some o2 ∧ o2.status = OrderStatus.processing := by
  exact updateOrderStatus_applies_requested oDelivered "processing" none none
    none 3 OrderStatus.processing (by decide) (by decide)

end Jaguza
